import Mathlib

/-!
Verification of the stock-report-puncher core against its specification.

The development shallowly embeds the pipeline code:
- the LlamaParse polling client (src/unnamed/part_000, pollLlamaParseJob),
- the sequential pipeline orchestrator (processFilesSequentialPipeline),
- the spreadsheet mergers handleCreateMode / handleUpdateMode (src/App.tsx).

External HTTP effects (fetch, setTimeout) are modelled by explicit oracle
parameters: the polling loop consumes a list of per-iteration outcomes whose
length plays the role of the wall-clock timeout budget, and the orchestrator
receives its capabilities as pure functions returning Except.  Wall-clock
fields of the source (processedAt, processingTimeMs, totalStats.processingTime)
are not modelled.
-/

namespace StockReport

/-- JS `a || b` on an optional string: `null`/`undefined` and the empty string
are falsy, everything else is itself (part_000 lines 213, 457). -/
def jsOr (o : Option String) (d : String) : String :=
  match o with
  | some s => if s = "" then d else s
  | none => d

/-! ## DocumentParseClient: pollLlamaParseJob (part_000 lines 90-241) -/

/-- Terminal status values of a LlamaParseResult (part_000 lines 4-11).
The `pending`/`processing` members exist in the source union type but
pollLlamaParseJob only ever returns `completed` or `error`. -/
inductive LPStatus
  | pending
  | processing
  | completed
  | error
deriving DecidableEq, Repr

/-- LlamaParseResult (part_000 lines 4-11); the wall-clock `processedAt`
field is not modelled. -/
structure LlamaParseResult (J : Type) where
  id : String
  fileName : String
  status : LPStatus
  jsonData : Option J := none
  error : Option String := none
deriving DecidableEq, Repr

/-- The parsed JSON body returned by the job-status endpoint, restricted to
the fields pollLlamaParseJob probes (part_000 lines 106-165).  `rres` models
the `result` field together with its key count: the source uses it only when
it is an object with more than one key (line 133).  `pages` is only set when
the source value is an array (line 137); the remaining fields model the
corresponding response fields, `none` standing for an absent or falsy value. -/
structure StatusResponse (J : Type) where
  status : String
  rres : Option (J × Nat) := none
  pages : Option J := none
  content : Option J := none
  output : Option J := none
  data : Option J := none
  parsed_text : Option J := none
  json : Option J := none
  document : Option J := none
  error : Option String := none
deriving DecidableEq, Repr

/-- Outcome of the fallback fetch of the markdown result endpoint
(part_000 lines 169-187): a 2xx response with a JSON body, a non-2xx
response (logged, jsonData stays null), or a thrown exception (caught at
line 185, jsonData stays null). -/
inductive MdOutcome (J : Type)
  | ok (v : J)
  | badStatus (code : Nat)
  | throws
deriving DecidableEq, Repr

/-- One iteration of the polling loop as seen from the outside
(part_000 lines 95-230): the status fetch either throws (network failure or
malformed JSON, `netFail`), returns a non-2xx response (line 102, which the
source converts into a thrown and then caught error), or yields a parsed
body together with the markdown-fallback outcome that would be observed if
the fallback were taken. -/
inductive PollStep (J : Type)
  | netFail (msg : String)
  | httpError (code : Nat)
  | response (r : StatusResponse J) (md : MdOutcome J)
deriving DecidableEq, Repr

/-- The direct-field probing chain of part_000 lines 137-165:
pages, content, output, data, parsed_text, json, document, in that order. -/
def probeFields {J : Type} (r : StatusResponse J) : Option J :=
  (r.pages.orElse fun _ =>
    (r.content.orElse fun _ =>
      (r.output.orElse fun _ =>
        (r.data.orElse fun _ =>
          (r.parsed_text.orElse fun _ =>
            (r.json.orElse fun _ => r.document))))))

/-- The full probing chain of part_000 lines 130-165, starting with the
`result` field (used only when it is an object with more than one key). -/
def probeDirect {J : Type} (r : StatusResponse J) : Option J :=
  match r.rres with
  | some (v, n) => if 1 < n then some v else probeFields r
  | none => probeFields r

/-- jsonData selection on a SUCCESS response (part_000 lines 130-188):
the direct probing chain, then the markdown endpoint; a failed or throwing
markdown fetch leaves jsonData null. -/
def extractJsonData {J : Type} (r : StatusResponse J) (md : MdOutcome J) : Option J :=
  match probeDirect r with
  | some v => some v
  | none =>
    match md with
    | .ok v => some v
    | _ => none

/-- pollLlamaParseJob (part_000 lines 90-241).  The loop guard
`Date.now() - startTime < PROCESSING_TIMEOUT` is modelled by the length of
the oracle list: each list element is one loop iteration inside the budget,
and exhausting the list is reaching the timeout (lines 233-240).  All
exceptional paths are inside the `try` of lines 95-230 and are caught at
line 221. -/
def pollLlamaParseJob {J : Type} (jobId fileName : String) :
    List (PollStep J) → LlamaParseResult J
  | [] =>
    { id := jobId, fileName := fileName, status := .error,
      error := some "Processing timeout exceeded" }
  | .netFail msg :: _ =>
    { id := jobId, fileName := fileName, status := .error, error := some msg }
  | .httpError code :: _ =>
    { id := jobId, fileName := fileName, status := .error,
      error := some ("Failed to check job status: " ++ toString code) }
  | .response r md :: rest =>
    if r.status = "SUCCESS" then
      { id := jobId, fileName := fileName, status := .completed,
        jsonData := extractJsonData r md }
    else if r.status = "ERROR" then
      { id := jobId, fileName := fileName, status := .error,
        error := some (jsOr r.error "Unknown LlamaParse error") }
    else pollLlamaParseJob jobId fileName rest

/-- A polling iteration that does not make the loop return: a well-formed
response whose status is neither SUCCESS nor ERROR (part_000 line 218). -/
def nonTerminalStep {J : Type} : PollStep J → Prop
  | .response r _ => r.status ≠ "SUCCESS" ∧ r.status ≠ "ERROR"
  | _ => False

/-- A polling step whose SUCCESS branch would find content: either the
direct probing chain hits a field or the markdown fallback succeeds. -/
def successStepHasData {J : Type} : PollStep J → Prop
  | .response r md => r.status = "SUCCESS" → (probeDirect r ≠ none ∨ ∃ v, md = .ok v)
  | _ => True

/-! ## PipelineOrchestrator: processFilesSequentialPipeline (part_000 lines 350-540) -/

/-- DriveFile restricted to the fields the orchestrator reads (id, name). -/
structure DriveFile where
  id : String
  name : String
deriving DecidableEq, Repr

/-- Per-stage status of PipelineFileResult (part_009 lines 66-76). -/
inductive StageStatus
  | pending
  | processing
  | completed
  | error
deriving DecidableEq, Repr

/-- PipelineFileResult (part_009 lines 66-76); the wall-clock
processingTimeMs field is not modelled. -/
structure PipelineFileResult where
  id : String
  fileName : String
  downloadStatus : StageStatus
  llamaParseStatus : StageStatus
  geminiStatus : StageStatus
  sheetsStatus : StageStatus
  error : Option String := none
  llamaParseJobId : Option String := none
deriving DecidableEq, Repr

/-- The currentStage union of PipelineProgress (part_009 line 59). -/
inductive PipeStage
  | download
  | llamaparse
  | gemini
  | sheets
  | completed
deriving DecidableEq, Repr

/-- PipelineProgress (part_009 lines 55-64). -/
structure PipelineProgress where
  totalFiles : Nat
  currentFileIndex : Nat
  currentFileName : Option String
  currentStage : PipeStage
  fileResults : List PipelineFileResult
  overallProgress : Nat
  isComplete : Bool
  hasErrors : Bool
deriving DecidableEq, Repr

/-- getCurrentStageWeight (part_000 lines 404-413). -/
def getCurrentStageWeight : PipeStage → Nat
  | .download => 0
  | .llamaparse => 1
  | .gemini => 2
  | .sheets => 3
  | .completed => 4

/-- JS Math.round on the nonnegative rational num/den (round half up);
the source computes Math.round((completedStages / totalStages) * 100)
at part_000 line 390. -/
def jsRound (num den : Nat) : Nat := (2 * num + den) / (2 * den)

/-- The progress snapshot built by updateProgress (part_000 lines 386-402)
from the full file list, the current fileResults array, the index of the
file being processed and the current stage. -/
def updateProgress (driveFiles : List DriveFile) (fileResults : List PipelineFileResult)
    (i : Nat) (stage : PipeStage) : PipelineProgress :=
  { totalFiles := driveFiles.length,
    currentFileIndex := i,
    currentFileName := (driveFiles.get? i).map (·.name),
    currentStage := stage,
    fileResults := fileResults,
    overallProgress :=
      min 100 (jsRound ((i * 4 + getCurrentStageWeight stage) * 100) (driveFiles.length * 4)),
    isComplete := i == driveFiles.length && stage == .completed,
    hasErrors := fileResults.any fun f =>
      f.downloadStatus == .error || f.llamaParseStatus == .error ||
      f.geminiStatus == .error || f.sheetsStatus == .error }

/-- Result of uploadPdfToLlamaParse as consumed by the orchestrator
(part_000 lines 43-85 return an id and a status). -/
structure UploadResult where
  id : String
  status : String
deriving DecidableEq, Repr

/-- The statistics object of a Gemini result (part_000 lines 483-484);
the wall-clock processingTime is not modelled. -/
structure GeminiStats where
  lineItemsFound : Nat
  periodsFound : Nat
deriving DecidableEq, Repr

/-- The record returned by the injected geminiProcessFn
(part_000 line 357): data rows, the raw LLM output and statistics. -/
structure GeminiOutput (G : Type) where
  data : List G
  rawOutput : String
  stats : GeminiStats
deriving DecidableEq, Repr

/-- The operationType parameter of the orchestrator (part_000 line 353). -/
inductive OperationType
  | create
  | update
deriving DecidableEq, Repr

/-- The external capabilities injected into processFilesSequentialPipeline
(part_000 lines 356-359) plus the two HTTP calls of the parse stage.
Each fallible JS call is a pure function returning Except; pollFn is total
because pollLlamaParseJob catches every exception of its polling loop and
never throws.  F is the type of downloaded files, J the parsed JSON
payload, G one extracted data row. -/
structure PipelineEnv (F J G : Type) where
  downloadFn : String → String → Except String F
  uploadFn : F → Except String UploadResult
  pollFn : String → String → LlamaParseResult J
  geminiProcessFn : J → List (List String) → OperationType → Except String (GeminiOutput G)
  sheetsWriteFn : List G → String → Except String Unit
  getExistingSheetFn : Except String (List (List String))

/-- Observable actions of one pipeline run, in emission order: progress
callbacks and capability invocations. -/
inductive PipeEvent (G : Type)
  | progress (p : PipelineProgress)
  | getSheetCall
  | downloadCall (fileId fileName : String)
  | uploadCall
  | pollCall (jobId : String)
  | geminiCall
  | persistCall (data : List G) (stockName : String)
deriving DecidableEq, Repr

/-- totalStats accumulated by the orchestrator (part_000 line 426);
the wall-clock processingTime component is not modelled. -/
structure TotalStats where
  filesProcessed : Nat
  lineItemsFound : Nat
  periodsFound : Nat
deriving DecidableEq, Repr

/-- The mutable accumulators of the orchestrator loop (part_000 lines
423-426): allData, successfulFiles, failedFiles, totalStats. -/
structure PipelineAccum (G : Type) where
  allData : List G
  successfulFiles : List String
  failedFiles : List String
  stats : TotalStats
deriving DecidableEq, Repr

/-- Initial accumulator state (part_000 lines 423-426). -/
def initAccum (G : Type) : PipelineAccum G :=
  { allData := [], successfulFiles := [], failedFiles := [],
    stats := { filesProcessed := 0, lineItemsFound := 0, periodsFound := 0 } }

/-- Initial per-file result (part_000 lines 376-383). -/
def initFileResult (f : DriveFile) : PipelineFileResult :=
  { id := f.id, fileName := f.name,
    downloadStatus := .pending, llamaParseStatus := .pending,
    geminiStatus := .pending, sheetsStatus := .pending }

/-- A stage status hit by the catch block: only statuses currently
processing are turned into error (part_000 lines 499-502). -/
def errStage (s : StageStatus) : StageStatus :=
  if s = .processing then .error else s

/-- The catch block of part_000 lines 492-507 applied to one file result:
record the error message and flip every processing status to error. -/
def markCatch (fr : PipelineFileResult) (msg : String) : PipelineFileResult :=
  { fr with
    error := some msg,
    downloadStatus := errStage fr.downloadStatus,
    llamaParseStatus := errStage fr.llamaParseStatus,
    geminiStatus := errStage fr.geminiStatus,
    sheetsStatus := errStage fr.sheetsStatus }

/-- Output of one iteration of the orchestrator loop. -/
structure StepResult (G : Type) where
  results : List PipelineFileResult
  acc : PipelineAccum G
  events : List (PipeEvent G)
  ok : Bool
deriving DecidableEq, Repr

/-- Shared tail of every catch path of the loop body (part_000 lines
492-508): mark the current file result, append the file name to
failedFiles, and emit the updateProgress(i, gemini) callback of line 507. -/
def stepFail {G : Type} (files : List DriveFile) (i : Nat) (name : String)
    (rs : List PipelineFileResult) (st : PipelineAccum G)
    (fr : PipelineFileResult) (msg : String) (evs : List (PipeEvent G)) : StepResult G :=
  let frE := markCatch fr msg
  let rsE := rs.set i frE
  { results := rsE,
    acc := { st with failedFiles := st.failedFiles ++ [name] },
    events := evs ++ [.progress (updateProgress files rsE i .gemini)],
    ok := false }

/-- The body of the per-file loop of processFilesSequentialPipeline
(part_000 lines 429-509): download, LlamaParse upload + poll, Gemini, and
data accumulation, with the shared catch block on every failure path.
Each updateProgress call snapshots the fileResults array at the moment of
the call, exactly as in the source. -/
def processOneFile {F J G : Type} (env : PipelineEnv F J G) (files : List DriveFile)
    (operationType : OperationType) (existingSheet : List (List String))
    (i : Nat) (driveFile : DriveFile)
    (rs : List PipelineFileResult) (st : PipelineAccum G) : StepResult G :=
  let fr0 := rs.getD i (initFileResult driveFile)
  let ev1 : PipeEvent G := .progress (updateProgress files rs i .download)
  let fr1 := { fr0 with downloadStatus := .processing }
  let rs1 := rs.set i fr1
  match env.downloadFn driveFile.id driveFile.name with
  | .error msg =>
    stepFail files i driveFile.name rs1 st fr1 msg
      [ev1, .downloadCall driveFile.id driveFile.name]
  | .ok file =>
    let fr2 := { fr1 with downloadStatus := .completed }
    let rs2 := rs1.set i fr2
    let ev2 : PipeEvent G := .progress (updateProgress files rs2 i .llamaparse)
    let fr3 := { fr2 with llamaParseStatus := .processing }
    let rs3 := rs2.set i fr3
    let evsA : List (PipeEvent G) :=
      [ev1, .downloadCall driveFile.id driveFile.name, ev2, .uploadCall]
    match env.uploadFn file with
    | .error msg => stepFail files i driveFile.name rs3 st fr3 msg evsA
    | .ok up =>
      let fr4 := { fr3 with llamaParseJobId := some up.id }
      let rs4 := rs3.set i fr4
      let parseResult := env.pollFn up.id driveFile.name
      let evsB := evsA ++ [.pollCall up.id]
      match (if parseResult.status = .completed then parseResult.jsonData else none) with
      | none =>
        stepFail files i driveFile.name rs4 st fr4
          ("LlamaParse failed: " ++ jsOr parseResult.error "Unknown error") evsB
      | some j =>
        let fr5 := { fr4 with llamaParseStatus := .completed }
        let rs5 := rs4.set i fr5
        let ev3 : PipeEvent G := .progress (updateProgress files rs5 i .gemini)
        let fr6 := { fr5 with geminiStatus := .processing }
        let rs6 := rs5.set i fr6
        let evsC := evsB ++ [ev3, .geminiCall]
        match env.geminiProcessFn j existingSheet operationType with
        | .error msg => stepFail files i driveFile.name rs6 st fr6 msg evsC
        | .ok g =>
          let fr7 := { fr6 with geminiStatus := .completed }
          let rs7 := rs6.set i fr7
          let ev4 : PipeEvent G := .progress (updateProgress files rs7 i .sheets)
          let fr9 := { fr7 with sheetsStatus := .completed }
          let rs9 := rs7.set i fr9
          { results := rs9,
            acc := { allData := st.allData ++ g.data,
                     successfulFiles := st.successfulFiles ++ [driveFile.name],
                     failedFiles := st.failedFiles,
                     stats := { filesProcessed := st.stats.filesProcessed + 1,
                                lineItemsFound := st.stats.lineItemsFound + g.stats.lineItemsFound,
                                periodsFound := st.stats.periodsFound + g.stats.periodsFound } },
            events := evsC ++ [ev4],
            ok := true }

/-- Output of the orchestrator loop. -/
structure LoopResult (G : Type) where
  results : List PipelineFileResult
  acc : PipelineAccum G
  events : List (PipeEvent G)
deriving DecidableEq, Repr

/-- The for-loop of part_000 lines 429-509, processing the remaining files
rem = driveFiles.drop i strictly sequentially. -/
def pipelineLoop {F J G : Type} (env : PipelineEnv F J G) (files : List DriveFile)
    (operationType : OperationType) (existingSheet : List (List String)) :
    Nat → List DriveFile → List PipelineFileResult → PipelineAccum G → LoopResult G
  | _, [], rs, st => { results := rs, acc := st, events := [] }
  | i, f :: rest, rs, st =>
    let step := processOneFile env files operationType existingSheet i f rs st
    let tail := pipelineLoop env files operationType existingSheet (i + 1) rest
      step.results step.acc
    { results := tail.results, acc := tail.acc, events := step.events ++ tail.events }

/-- LLAMAPARSE_BATCH_SIZE (config.ts): default 10. -/
def LLAMAPARSE_BATCH_SIZE : Nat := 10

/-- The aggregate result returned by processFilesSequentialPipeline
(part_000 lines 360-365, 534-539). -/
structure PipelineReturn (G : Type) where
  successfulFiles : List String
  failedFiles : List String
  allData : List G
  totalStats : TotalStats
deriving DecidableEq, Repr

/-- processFilesSequentialPipeline (part_000 lines 350-540): eager batch
validation, best-effort snapshot fetch, the sequential per-file loop, the
single deferred sheets write (performed only when data was accumulated,
its own failure swallowed at lines 519-522), and the final progress event.
The returned trace lists every progress callback and capability invocation
in order; a thrown validation error carries no trace, since the source
throws before anything else runs. -/
def processFilesSequentialPipeline {F J G : Type} (env : PipelineEnv F J G)
    (driveFiles : List DriveFile) (stockName : String)
    (operationType : OperationType) :
    Except String (PipelineReturn G × List (PipeEvent G)) :=
  if driveFiles.length = 0 then
    .error "No files provided for processing"
  else if LLAMAPARSE_BATCH_SIZE < driveFiles.length then
    .error ("Too many files. Maximum batch size is " ++ toString LLAMAPARSE_BATCH_SIZE
      ++ ", got " ++ toString driveFiles.length)
  else
    let existingSheet := match env.getExistingSheetFn with
      | .ok s => s
      | .error _ => []
    let L := pipelineLoop env driveFiles operationType existingSheet 0 driveFiles
      (driveFiles.map initFileResult) (initAccum G)
    let finalEvents : List (PipeEvent G) :=
      (if 0 < L.acc.allData.length then
        [PipeEvent.progress (updateProgress driveFiles L.results driveFiles.length .sheets),
         PipeEvent.persistCall L.acc.allData stockName]
       else []) ++
      [PipeEvent.progress (updateProgress driveFiles L.results driveFiles.length .completed)]
    .ok ({ successfulFiles := L.acc.successfulFiles,
           failedFiles := L.acc.failedFiles,
           allData := L.acc.allData,
           totalStats := L.acc.stats },
         .getSheetCall :: L.events ++ finalEvents)

/-- The overallProgress values of the progress events of a trace, in order. -/
def progVals {G : Type} (evs : List (PipeEvent G)) : List Nat :=
  evs.filterMap fun e =>
    match e with
    | .progress p => some p.overallProgress
    | _ => none

/-- The persist invocations of a trace, in order. -/
def persistEvents {G : Type} (evs : List (PipeEvent G)) : List (List G × String) :=
  evs.filterMap fun e =>
    match e with
    | .persistCall d s => some (d, s)
    | _ => none

/-- An event that is a persist invocation. -/
def isPersistCall {G : Type} : PipeEvent G → Prop
  | .persistCall _ _ => True
  | _ => False

/-- An event that is a progress callback. -/
def isProgressEvent {G : Type} : PipeEvent G → Prop
  | .progress _ => True
  | _ => False

/-- The overallProgress value emitted for completed-stages count c out of
n files (part_000 lines 386-402). -/
def opv (n c : Nat) : Nat := min 100 (jsRound (c * 100) (n * 4))

/-- The trace of a pipeline run, empty when the run threw. -/
def traceOf {G : Type} :
    Except String (PipelineReturn G × List (PipeEvent G)) → List (PipeEvent G)
  | .ok (_, tr) => tr
  | .error _ => []

/-- The aggregate result of a pipeline run, with empty lists when it threw. -/
def retOf {G : Type} :
    Except String (PipelineReturn G × List (PipeEvent G)) → PipelineReturn G
  | .ok (ret, _) => ret
  | .error _ =>
    { successfulFiles := [], failedFiles := [], allData := [],
      totalStats := { filesProcessed := 0, lineItemsFound := 0, periodsFound := 0 } }

/-- The fileResults snapshot of the last progress event of a trace. -/
def lastFileResults {G : Type} (tr : List (PipeEvent G)) : List PipelineFileResult :=
  match tr.getLast? with
  | some (.progress p) => p.fileResults
  | _ => []

/-- Concrete capability environment: every stage succeeds except that the
download of file id2 throws; Gemini extracts one row per file. -/
def envDownloadFail2 : PipelineEnv Unit Unit String :=
  { downloadFn := fun fid _ => if fid = "id2" then .error "network down" else .ok (),
    uploadFn := fun _ => .ok { id := "job-1", status := "PENDING" },
    pollFn := fun jid fn =>
      { id := jid, fileName := fn, status := .completed, jsonData := some () },
    geminiProcessFn := fun _ _ _ =>
      .ok { data := ["row"], rawOutput := "raw",
            stats := { lineItemsFound := 1, periodsFound := 1 } },
    sheetsWriteFn := fun _ _ => .ok (),
    getExistingSheetFn := .ok [] }

/-- Concrete capability environment: every stage succeeds and Gemini
returns an empty record set. -/
def envEmptyGemini : PipelineEnv Unit Unit String :=
  { envDownloadFail2 with
    downloadFn := fun _ _ => .ok (),
    geminiProcessFn := fun _ _ _ =>
      .ok { data := [], rawOutput := "raw",
            stats := { lineItemsFound := 0, periodsFound := 0 } } }

/-- Concrete capability environment: every stage succeeds up to Gemini,
which throws. -/
def envGeminiThrows : PipelineEnv Unit Unit String :=
  { envDownloadFail2 with
    downloadFn := fun _ _ => .ok (),
    geminiProcessFn := fun _ _ _ => .error "gemini boom" }

/-- A three-file batch. -/
def files3 : List DriveFile := [⟨"id1", "file1"⟩, ⟨"id2", "file2"⟩, ⟨"id3", "file3"⟩]

/-- An eleven-file batch, one more than the configured maximum. -/
def files11 : List DriveFile := List.replicate 11 ⟨"idX", "fileX"⟩

/-- The run in which file 2 of 3 fails at the download stage. -/
def runDownloadFail2 : Except String (PipelineReturn String × List (PipeEvent String)) :=
  processFilesSequentialPipeline envDownloadFail2 files3 "ACME" .create

/-- The run of a single file whose interpretation returns zero records. -/
def runEmptyGemini : Except String (PipelineReturn String × List (PipeEvent String)) :=
  processFilesSequentialPipeline envEmptyGemini [⟨"id1", "file1"⟩] "ACME" .create

/-! ## TableMerger: handleCreateMode / handleUpdateMode (App.tsx lines 196-284) -/

/-- Lexicographic comparison of character lists by code unit, the order the
default JS Array.prototype.sort applies to strings. -/
def chListLe : List Char → List Char → Bool
  | [], _ => true
  | _ :: _, [] => false
  | a :: as, b :: bs =>
    if a.toNat < b.toNat then true
    else if b.toNat < a.toNat then false
    else chListLe as bs

/-- String comparison used by the JS default sort (App.tsx lines 204, 252). -/
def jsLeb (a b : String) : Bool := chListLe a.data b.data

/-- One extracted record: the JS object with a lineItem key and an
open-ended set of period keys, split into the lineItem value and the
association list of the remaining fields. -/
structure Rec where
  lineItem : String
  fields : List (String × String)
deriving DecidableEq, Repr

/-- JS item[period] with an || fallback to the empty string
(App.tsx lines 214, 269): an absent key (and an empty stored value, which
the || collapses to the same result) gives the empty string. -/
def jsGet (r : Rec) (p : String) : String := (r.fields.lookup p).getD ""

/-- An A1-notation cell range in structured form: 0-based column indices
and 1-based spreadsheet row numbers of its two corners. -/
structure CellRange where
  startCol : Nat
  startRow : Nat
  endCol : Nat
  endRow : Nat
deriving DecidableEq, Repr

/-- One element of an updateSheetCells request (App.tsx): a range and the
rows of values written to it. -/
structure CellUpdate where
  range : CellRange
  values : List (List String)
deriving DecidableEq, Repr

/-- The column letter of a 0-based column index, String.fromCharCode(65 +
index) as used at App.tsx lines 209, 224, 258, 272. -/
def colChar (c : Nat) : Char := Char.ofNat (65 + c)

/-- The A1 range string the source builds, its columns encoded by colChar. -/
def renderRange (r : CellRange) : String :=
  String.singleton (colChar r.startCol) ++ toString r.startRow ++ ":" ++
    String.singleton (colChar r.endCol) ++ toString r.endRow

/-- The rendered range is a well-formed single-letter column reference:
both column characters lie in A-Z. -/
def rangeWellFormed (r : CellRange) : Prop :=
  ('A' ≤ colChar r.startCol ∧ colChar r.startCol ≤ 'Z') ∧
  ('A' ≤ colChar r.endCol ∧ colChar r.endCol ≤ 'Z')

/-- The sorted period list of CREATE mode (App.tsx lines 197-204): the
distinct non-lineItem keys of all records, sorted.  The JS Set keeps first
occurrences and dedup keeps last ones, but both produce the same set of
distinct keys, so the sorted output is the same. -/
def createPeriods (extractedData : List Rec) : List String :=
  List.insertionSort (fun a b => jsLeb a b = true)
    ((extractedData.flatMap fun r =>
      (r.fields.map Prod.fst).filter fun k => k != "lineItem").dedup)

/-- handleCreateMode (App.tsx lines 196-229), returning the list of
updateSheetCells calls it awaits: the header-row call, then — unless there
are no data rows — one call carrying every data row.  The currentSheet
parameter is accepted and ignored exactly as in the source. -/
def handleCreateMode (extractedData : List Rec) (currentSheet : List (List String)) :
    List (List CellUpdate) :=
  let periods := createPeriods extractedData
  let headerRow := "lineItem" :: periods
  let headerCall : List CellUpdate :=
    [{ range := { startCol := 0, startRow := 1, endCol := periods.length, endRow := 1 },
       values := [headerRow] }]
  let newRows := extractedData.map fun r => r.lineItem :: periods.map fun p => jsGet r p
  if newRows.length = 0 then [headerCall]
  else
    [headerCall,
     newRows.enum.map fun ir =>
       { range := { startCol := 0, startRow := ir.1 + 2,
                    endCol := periods.length, endRow := ir.1 + 2 },
         values := [ir.2] }]

/-- The existing period columns (App.tsx line 233):
currentSheet[0]?.slice(1) with [] for a missing header row. -/
def existingPeriodsOf (currentSheet : List (List String)) : List String :=
  (currentSheet.getD 0 []).drop 1

/-- The distinct new periods of UPDATE mode (App.tsx lines 237-244): keys
of some record that are neither lineItem nor an existing period. -/
def updNewPeriods (currentSheet : List (List String)) (extractedData : List Rec) :
    List String :=
  (extractedData.flatMap fun r =>
    (r.fields.map Prod.fst).filter fun k =>
      k != "lineItem" && !((existingPeriodsOf currentSheet).contains k)).dedup

/-- The value the UPDATE path would write into the row labelled li at
period p: the matching record's value, the empty string when no record
matches or the record lacks the period (App.tsx lines 267-269). -/
def rowNewValue (extractedData : List Rec) (li : Option String) (p : String) : String :=
  ((extractedData.find? fun item => some item.lineItem == li).map
    fun item => jsGet item p).getD ""

/-- BATCH_SIZE of the UPDATE path (App.tsx line 253). -/
def UPDATE_BATCH_SIZE : Nat := 10

/-- The column-batched loop of handleUpdateMode (App.tsx lines 254-283):
rem is the tail sortedNewPeriods.slice(i) of the sorted new periods, and
each round emits one updateSheetCells call holding the batch header write
plus a write for every existing row whose matching record has some
non-empty value in the batch.  The fuel argument bounds the number of
rounds; every round consumes at least one period, so fuel = rem.length
(what updateBatches passes) always suffices, and the recursion stays
structural so that runs evaluate inside the kernel. -/
def updateBatchesFuel (exLen : Nat) (extractedData : List Rec)
    (lineItems : List (Option String)) :
    Nat → Nat → List String → List (List CellUpdate)
  | 0, _, _ => []
  | n + 1, i, rem =>
    if rem = [] then []
    else
      let batch := rem.take UPDATE_BATCH_SIZE
      let rest := rem.drop UPDATE_BATCH_SIZE
      let batchStartColIndex := exLen + 1 + i
      let batchEndColIndex := batchStartColIndex + batch.length - 1
      let headerUpd : CellUpdate :=
        { range := { startCol := batchStartColIndex, startRow := 1,
                     endCol := batchEndColIndex, endRow := 1 },
          values := [batch] }
      let dataUpds : List CellUpdate :=
        lineItems.enum.filterMap fun rli =>
          match extractedData.find? fun item => some item.lineItem == rli.2 with
          | some item =>
            let newValues := batch.map fun p => jsGet item p
            if newValues.any fun v => v != "" then
              some { range := { startCol := batchStartColIndex, startRow := rli.1 + 2,
                                endCol := batchEndColIndex, endRow := rli.1 + 2 },
                     values := [newValues] }
            else none
          | none => none
      let updates := headerUpd :: dataUpds
      (if 0 < updates.length then [updates] else []) ++
        updateBatchesFuel exLen extractedData lineItems n (i + UPDATE_BATCH_SIZE) rest

/-- The batched column loop entered with enough fuel for all its rounds. -/
def updateBatches (exLen : Nat) (extractedData : List Rec)
    (lineItems : List (Option String)) (i : Nat) (rem : List String) :
    List (List CellUpdate) :=
  updateBatchesFuel exLen extractedData lineItems rem.length i rem

/-- handleUpdateMode (App.tsx lines 231-284), returning the list of
updateSheetCells calls it awaits. -/
def handleUpdateMode (currentSheet : List (List String)) (extractedData : List Rec) :
    List (List CellUpdate) :=
  let existingPeriods := existingPeriodsOf currentSheet
  let existingLineItems := (currentSheet.drop 1).map fun row => row.head?
  let newPeriodsList := updNewPeriods currentSheet extractedData
  if newPeriodsList.length = 0 then []
  else
    updateBatches existingPeriods.length extractedData existingLineItems 0
      (List.insertionSort (fun a b => jsLeb a b = true) newPeriodsList)

/-- The header and data rows a list of updateSheetCells calls carries, in
emission order. -/
def emittedRows (calls : List (List CellUpdate)) : List (List String) :=
  calls.flatten.flatMap fun u => u.values

/-- Concrete UPDATE-mode snapshot: a header with one existing period and
two data rows. -/
def sheetW : List (List String) := [["lineItem", "2022"], ["Revenue", "1"], ["Costs", "2"]]

/-- Concrete records adding period 2023: Revenue has a value, Costs has
only an empty value. -/
def recsW : List Rec := [⟨"Revenue", [("2023", "5")]⟩, ⟨"Costs", [("2023", "")]⟩]

end StockReport

namespace StockReport

/-! ## Theorems about pollLlamaParseJob -/

/-- C3: pollLlamaParseJob always returns a LlamaParseResult and never throws
(it is a total function of its oracle): an exception raised inside the
polling loop, whether a rejected fetch / JSON failure or a non-2xx status
response, yields an error-status result carrying the exception message, and
exhausting the timeout budget without observing a terminal status yields an
error-status result with message "Processing timeout exceeded". -/
theorem pollLlamaParseJob_never_throws {J : Type} (jobId fileName : String)
    (steps : List (PollStep J)) (hnt : ∀ s ∈ steps, nonTerminalStep s) :
    (pollLlamaParseJob jobId fileName steps =
      { id := jobId, fileName := fileName, status := .error,
        error := some "Processing timeout exceeded" }) ∧
    (∀ (msg : String) (rest : List (PollStep J)),
      pollLlamaParseJob jobId fileName (.netFail msg :: rest) =
        { id := jobId, fileName := fileName, status := .error, error := some msg }) ∧
    (∀ (code : Nat) (rest : List (PollStep J)),
      pollLlamaParseJob jobId fileName (.httpError code :: rest) =
        { id := jobId, fileName := fileName, status := .error,
          error := some ("Failed to check job status: " ++ toString code) }) := by
  refine ⟨?_, fun msg rest => rfl, fun code rest => rfl⟩
  induction steps with
  | nil => rfl
  | cons s rest ih =>
    have hs := hnt s (List.mem_cons_self s rest)
    cases s with
    | netFail msg => exact absurd hs (by simp [nonTerminalStep])
    | httpError code => exact absurd hs (by simp [nonTerminalStep])
    | response r md =>
      have h1 : r.status ≠ "SUCCESS" := hs.1
      have h2 : r.status ≠ "ERROR" := hs.2
      simp only [pollLlamaParseJob, if_neg h1, if_neg h2]
      exact ih fun x hx => hnt x (List.mem_cons_of_mem _ hx)

/-- Witness for C3: a concrete two-iteration run that stays in PENDING and
times out, plus the exception and non-2xx cases. -/
theorem pollLlamaParseJob_never_throws_witness :
    (pollLlamaParseJob "job-1" "a.pdf"
      [PollStep.response (J := Unit) { status := "PENDING" } .throws,
       PollStep.response { status := "PENDING" } .throws] =
      { id := "job-1", fileName := "a.pdf", status := .error,
        error := some "Processing timeout exceeded" }) ∧
    (∀ (msg : String) (rest : List (PollStep Unit)),
      pollLlamaParseJob "job-1" "a.pdf" (.netFail msg :: rest) =
        { id := "job-1", fileName := "a.pdf", status := .error, error := some msg }) ∧
    (∀ (code : Nat) (rest : List (PollStep Unit)),
      pollLlamaParseJob "job-1" "a.pdf" (.httpError code :: rest) =
        { id := "job-1", fileName := "a.pdf", status := .error,
          error := some ("Failed to check job status: " ++ toString code) }) :=
  pollLlamaParseJob_never_throws "job-1" "a.pdf" _ (by
    intro s hs
    simp only [List.mem_cons, List.mem_singleton] at hs
    rcases hs with h | h | h <;> first
      | (subst h; exact ⟨by decide, by decide⟩)
      | cases h)

/-- C4 counterexample: a SUCCESS response carrying none of the probed data
fields, with the markdown fallback returning a non-2xx status, yields a
result with status completed and jsonData null — refuting the claim that
completed status implies the extracted content is present and non-null. -/
theorem completed_with_null_jsonData :
    (pollLlamaParseJob "job-1" "a.pdf"
        [PollStep.response (J := Unit) { status := "SUCCESS" } (.badStatus 500)]).status
      = .completed ∧
    (pollLlamaParseJob "job-1" "a.pdf"
        [PollStep.response (J := Unit) { status := "SUCCESS" } (.badStatus 500)]).jsonData
      = none := by
  constructor <;> rfl

/-- C4 amended: every result of pollLlamaParseJob with status error has
absent jsonData; and completed status implies jsonData is present and
non-null provided every SUCCESS response observed carries some probed data
field or a succeeding markdown fallback. -/
theorem pollLlamaParseJob_content_invariant {J : Type} (jobId fileName : String)
    (steps : List (PollStep J)) :
    ((pollLlamaParseJob jobId fileName steps).status = .error →
      (pollLlamaParseJob jobId fileName steps).jsonData = none) ∧
    ((∀ s ∈ steps, successStepHasData s) →
      (pollLlamaParseJob jobId fileName steps).status = .completed →
      (pollLlamaParseJob jobId fileName steps).jsonData ≠ none) := by
  induction steps with
  | nil => exact ⟨fun _ => rfl, fun _ h => by cases h⟩
  | cons s rest ih =>
    cases s with
    | netFail msg => exact ⟨fun _ => rfl, fun _ h => by cases h⟩
    | httpError code => exact ⟨fun _ => rfl, fun _ h => by cases h⟩
    | response r md =>
      by_cases h1 : r.status = "SUCCESS"
      · refine ⟨?_, ?_⟩
        · intro hst
          simp only [pollLlamaParseJob, if_pos h1] at hst
          cases hst
        · intro hall _
          have hd := hall (.response r md) (List.mem_cons_self _ _)
          simp only [successStepHasData] at hd
          rcases hd h1 with hprobe | ⟨v, hv⟩
          · simp only [pollLlamaParseJob, if_pos h1]
            simp only [extractJsonData]
            cases hp : probeDirect r with
            | none => exact absurd hp hprobe
            | some v => simp
          · subst hv
            simp only [pollLlamaParseJob, if_pos h1]
            simp only [extractJsonData]
            cases hp : probeDirect r with
            | none => simp
            | some v2 => simp
      · by_cases h2 : r.status = "ERROR"
        · refine ⟨fun _ => ?_, fun _ h => ?_⟩
          · simp only [pollLlamaParseJob, if_neg h1, if_pos h2]
          · simp only [pollLlamaParseJob, if_neg h1, if_pos h2] at h
            cases h
        · simp only [pollLlamaParseJob, if_neg h1, if_neg h2]
          exact ⟨ih.1, fun hall => ih.2 fun x hx => hall x (List.mem_cons_of_mem _ hx)⟩

/-- Witness for the amended C4: a SUCCESS response whose content field is
populated yields completed status with non-null jsonData, and an ERROR
response yields absent jsonData. -/
theorem pollLlamaParseJob_content_invariant_witness :
    ((pollLlamaParseJob "job-1" "a.pdf"
        [PollStep.response (J := Unit) { status := "ERROR", error := some "boom" } .throws]).status
        = .error →
      (pollLlamaParseJob "job-1" "a.pdf"
        [PollStep.response (J := Unit) { status := "ERROR", error := some "boom" } .throws]).jsonData
        = none) ∧
    ((pollLlamaParseJob "job-1" "a.pdf"
        [PollStep.response (J := Unit) { status := "SUCCESS", content := some () } .throws]).status
        = .completed →
      (pollLlamaParseJob "job-1" "a.pdf"
        [PollStep.response (J := Unit) { status := "SUCCESS", content := some () } .throws]).jsonData
        ≠ none) :=
  ⟨(pollLlamaParseJob_content_invariant "job-1" "a.pdf" _).1,
   (pollLlamaParseJob_content_invariant "job-1" "a.pdf" _).2 (by
     intro s hs
     simp only [List.mem_singleton] at hs
     subst hs
     intro _
     left
     decide)⟩

/-! ## Theorems about processFilesSequentialPipeline -/

/-- C9: an empty file list, or a file list longer than the configured
maximum batch size, makes processFilesSequentialPipeline throw immediately:
the result is the thrown error and carries no trace, so no capability was
invoked and the progress callback never ran (every capability invocation
and progress callback of a run appears in the trace of its ok result). -/
theorem batch_validation_rejects_eagerly {F J G : Type} (env : PipelineEnv F J G)
    (driveFiles : List DriveFile) (stockName : String) (operationType : OperationType) :
    (driveFiles.length = 0 →
      processFilesSequentialPipeline env driveFiles stockName operationType =
        .error "No files provided for processing") ∧
    (LLAMAPARSE_BATCH_SIZE < driveFiles.length →
      processFilesSequentialPipeline env driveFiles stockName operationType =
        .error ("Too many files. Maximum batch size is " ++ toString LLAMAPARSE_BATCH_SIZE
          ++ ", got " ++ toString driveFiles.length)) := by
  constructor
  · intro h0
    simp only [processFilesSequentialPipeline, if_pos h0]
  · intro hgt
    have h0 : driveFiles.length ≠ 0 := by
      intro h
      rw [h] at hgt
      exact absurd hgt (by decide)
    simp only [processFilesSequentialPipeline, if_neg h0, if_pos hgt]

/-- Witness for C9 at a zero-file batch and an eleven-file batch. -/
theorem batch_validation_rejects_eagerly_witness :
    (processFilesSequentialPipeline envDownloadFail2 [] "ACME" .create =
      .error "No files provided for processing") ∧
    (processFilesSequentialPipeline envDownloadFail2 files11 "ACME" .create =
      .error ("Too many files. Maximum batch size is " ++ toString LLAMAPARSE_BATCH_SIZE
        ++ ", got " ++ toString files11.length)) :=
  ⟨(batch_validation_rejects_eagerly envDownloadFail2 [] "ACME" .create).1 rfl,
   (batch_validation_rejects_eagerly envDownloadFail2 files11 "ACME" .create).2 (by decide)⟩

/-- C1 evaluated at its failing input: in a 3-file batch where only the
download of file 2 throws, files 1 and 3 fully succeed and
failedFiles = [file2], but in the final progress snapshot file 2 has
downloadStatus error while its llamaParse, gemini and sheets statuses stay
pending — not error as the claim (and the source comment at part_000 line
498, Mark current and remaining stages as error) require, because the catch
block only rewrites statuses that are currently processing. -/
theorem download_failure_leaves_later_stages_pending :
    (retOf runDownloadFail2).successfulFiles = ["file1", "file3"] ∧
    (retOf runDownloadFail2).failedFiles = ["file2"] ∧
    (lastFileResults (traceOf runDownloadFail2)).map (fun fr =>
        (fr.fileName, fr.downloadStatus, fr.llamaParseStatus, fr.geminiStatus, fr.sheetsStatus)) =
      [("file1", .completed, .completed, .completed, .completed),
       ("file2", .error, .pending, .pending, .pending),
       ("file3", .completed, .completed, .completed, .completed)] := by
  refine ⟨rfl, rfl, rfl⟩

/-- C5 counterexample: a successfully parsed single-file batch whose
interpretation returns an empty record set is counted successful, not
failed — refuting the claim that an empty interpret result puts the file
among failedFiles. -/
theorem empty_interpret_result_counts_successful :
    (retOf runEmptyGemini).successfulFiles = ["file1"] ∧
    (retOf runEmptyGemini).failedFiles = [] ∧
    (retOf runEmptyGemini).allData = [] := by
  refine ⟨rfl, rfl, rfl⟩

/-- persistEvents distributes over appending of traces. -/
theorem persistEvents_append {G : Type} (a b : List (PipeEvent G)) :
    persistEvents (a ++ b) = persistEvents a ++ persistEvents b :=
  List.filterMap_append ..

/-- The per-file loop body emits no persist invocation: the sheets stage of
a file only accumulates data (part_000 lines 472-479). -/
theorem processOneFile_persistEvents {F J G : Type} (env : PipelineEnv F J G)
    (files : List DriveFile) (operationType : OperationType)
    (existingSheet : List (List String)) (i : Nat) (f : DriveFile)
    (rs : List PipelineFileResult) (st : PipelineAccum G) :
    persistEvents (processOneFile env files operationType existingSheet i f rs st).events
      = [] := by
  unfold processOneFile stepFail
  rcases hdl : env.downloadFn f.id f.name with msg | file
  · simp [persistEvents, hdl]
  · rcases hup : env.uploadFn file with msg | up
    · simp [persistEvents, hdl, hup]
    · rcases hpj : (if (env.pollFn up.id f.name).status = .completed
          then (env.pollFn up.id f.name).jsonData else none) with _ | j
      · simp [persistEvents, hdl, hup, hpj]
      · rcases hgm : env.geminiProcessFn j existingSheet operationType with msg | g
        · simp [persistEvents, hdl, hup, hpj, hgm]
        · simp [persistEvents, hdl, hup, hpj, hgm]

/-- The whole sequential loop emits no persist invocation. -/
theorem pipelineLoop_persistEvents {F J G : Type} (env : PipelineEnv F J G)
    (files : List DriveFile) (operationType : OperationType)
    (existingSheet : List (List String)) :
    ∀ (rem : List DriveFile) (i : Nat) (rs : List PipelineFileResult)
      (st : PipelineAccum G),
      persistEvents (pipelineLoop env files operationType existingSheet i rem rs st).events
        = [] := by
  intro rem
  induction rem with
  | nil => intro i rs st; rfl
  | cons f rest ih =>
    intro i rs st
    simp only [pipelineLoop]
    rw [persistEvents_append, processOneFile_persistEvents, ih]
    rfl

/-- Events whose persist projection is empty contain no persist call. -/
theorem not_persist_of_persistEvents_nil {G : Type} {evs : List (PipeEvent G)}
    (h : persistEvents evs = []) : ∀ e ∈ evs, ¬ isPersistCall e := by
  intro e he hp
  cases e with
  | persistCall d s =>
    have hnone := (List.filterMap_eq_nil_iff.mp h) _ he
    simp at hnone
  | progress p => exact hp
  | getSheetCall => exact hp
  | downloadCall a b => exact hp
  | uploadCall => exact hp
  | pollCall a => exact hp
  | geminiCall => exact hp

/-- C2: in every run of processFilesSequentialPipeline the persist
capability is invoked at most once, with the entire accumulated record
collection and the target identifier — exactly once when the accumulated
collection is non-empty and never when it is empty — and only after all
files have been attempted: the trace splits into a prefix free of persist
invocations holding all per-file activity, followed by a suffix made of
persist invocations and progress callbacks only. -/
theorem pipeline_persist_once {F J G : Type} (env : PipelineEnv F J G)
    (driveFiles : List DriveFile) (stockName : String)
    (operationType : OperationType) (ret : PipelineReturn G)
    (tr : List (PipeEvent G))
    (h : processFilesSequentialPipeline env driveFiles stockName operationType
      = .ok (ret, tr)) :
    persistEvents tr =
      (if 0 < ret.allData.length then [(ret.allData, stockName)] else []) ∧
    ∃ pre post, tr = pre ++ post ∧ (∀ e ∈ pre, ¬ isPersistCall e) ∧
      ∀ e ∈ post, isPersistCall e ∨ isProgressEvent e := by
  rw [processFilesSequentialPipeline] at h
  split at h
  · exact absurd h (by simp)
  · split at h
    · exact absurd h (by simp)
    · simp only [Except.ok.injEq, Prod.mk.injEq] at h
      obtain ⟨hret, htr⟩ := h
      subst hret htr
      constructor
      · have hcons : ∀ (tl : List (PipeEvent G)),
            persistEvents (.getSheetCall :: tl) = persistEvents tl := fun _ => rfl
        rw [persistEvents_append, hcons, pipelineLoop_persistEvents]
        split
        · simp [persistEvents]
        · simp [persistEvents]
      · refine ⟨_, _, rfl, ?_, ?_⟩
        · intro e he hp
          rcases List.mem_cons.mp he with rfl | hmem
          · exact hp
          · exact not_persist_of_persistEvents_nil
              (pipelineLoop_persistEvents env driveFiles operationType _ driveFiles 0
                (driveFiles.map initFileResult) (initAccum G)) e hmem hp
        · intro e he
          split at he
          · rcases List.mem_cons.mp he with rfl | he2
            · exact Or.inr (by simp [isProgressEvent])
            · rcases List.mem_cons.mp he2 with rfl | he3
              · exact Or.inl (by simp [isPersistCall])
              · rcases List.mem_singleton.mp he3 with rfl
                exact Or.inr (by simp [isProgressEvent])
          · rcases List.mem_singleton.mp he with rfl
            exact Or.inr (by simp [isProgressEvent])

/-- Witness for C2: on the 3-file run with one download failure, the trace
holds exactly one persist invocation, carrying both extracted rows. -/
theorem pipeline_persist_once_witness :
    persistEvents (traceOf runDownloadFail2) =
      (if 0 < (retOf runDownloadFail2).allData.length
        then [((retOf runDownloadFail2).allData, "ACME")] else []) ∧
    ∃ pre post, traceOf runDownloadFail2 = pre ++ post ∧
      (∀ e ∈ pre, ¬ isPersistCall e) ∧
      ∀ e ∈ post, isPersistCall e ∨ isProgressEvent e :=
  pipeline_persist_once envDownloadFail2 files3 "ACME" .create
    (retOf runDownloadFail2) (traceOf runDownloadFail2) rfl

/-- The overallProgress formula is monotone in the completed-stages count. -/
theorem opv_mono (n : Nat) {c d : Nat} (h : c ≤ d) : opv n c ≤ opv n d := by
  unfold opv jsRound
  exact min_le_min (le_refl 100) (Nat.div_le_div_right (by omega))

/-- The overallProgress field of an updateProgress snapshot. -/
theorem updateProgress_overallProgress (files : List DriveFile)
    (rs : List PipelineFileResult) (i : Nat) (stage : PipeStage) :
    (updateProgress files rs i stage).overallProgress =
      opv files.length (i * 4 + getCurrentStageWeight stage) := rfl

/-- progVals distributes over appending of traces. -/
theorem progVals_append {G : Type} (a b : List (PipeEvent G)) :
    progVals (a ++ b) = progVals a ++ progVals b :=
  List.filterMap_append ..

/-- Appending chains of nondecreasing values stays nondecreasing when every
left value is below every right value. -/
theorem chain_le_append {A B : List Nat} (hA : List.Chain' (· ≤ ·) A)
    (hB : List.Chain' (· ≤ ·) B) (hab : ∀ a ∈ A, ∀ b ∈ B, a ≤ b) :
    List.Chain' (· ≤ ·) (A ++ B) :=
  List.Chain'.append hA hB fun x hx y hy =>
    hab x (List.mem_of_mem_getLast? hx) y (List.mem_of_mem_head? hy)

/-- One loop iteration emits nondecreasing overallProgress values, all
between the start and end weights of the file being processed. -/
theorem processOneFile_progVals_chain {F J G : Type} (env : PipelineEnv F J G)
    (files : List DriveFile) (operationType : OperationType)
    (existingSheet : List (List String)) (i : Nat) (f : DriveFile)
    (rs : List PipelineFileResult) (st : PipelineAccum G) :
    List.Chain' (· ≤ ·)
      (progVals (processOneFile env files operationType existingSheet i f rs st).events) ∧
    ∀ v ∈ progVals (processOneFile env files operationType existingSheet i f rs st).events,
      opv files.length (i * 4) ≤ v ∧ v ≤ opv files.length (i * 4 + 3) := by
  unfold processOneFile stepFail
  rcases hdl : env.downloadFn f.id f.name with msg | file
  · simp only [hdl, progVals, List.filterMap_append, List.filterMap_cons,
      List.filterMap_nil, updateProgress_overallProgress, getCurrentStageWeight]
    constructor
    · simp only [List.cons_append, List.nil_append, List.chain'_cons,
        List.chain'_singleton, and_true]
      exact opv_mono _ (by omega)
    · intro v hv
      simp only [List.cons_append, List.nil_append, List.mem_cons,
        List.mem_singleton] at hv
      rcases hv with rfl | rfl | h
      · exact ⟨opv_mono _ (by omega), opv_mono _ (by omega)⟩
      · exact ⟨opv_mono _ (by omega), opv_mono _ (by omega)⟩
      · cases h
  · rcases hup : env.uploadFn file with msg | up
    · simp only [hdl, hup, progVals, List.filterMap_append, List.filterMap_cons,
        List.filterMap_nil, updateProgress_overallProgress, getCurrentStageWeight]
      constructor
      · simp only [List.cons_append, List.nil_append, List.chain'_cons,
          List.chain'_singleton, and_true]
        exact ⟨opv_mono _ (by omega), opv_mono _ (by omega)⟩
      · intro v hv
        simp only [List.cons_append, List.nil_append, List.mem_cons,
          List.mem_singleton] at hv
        rcases hv with rfl | rfl | rfl | h
        · exact ⟨opv_mono _ (by omega), opv_mono _ (by omega)⟩
        · exact ⟨opv_mono _ (by omega), opv_mono _ (by omega)⟩
        · exact ⟨opv_mono _ (by omega), opv_mono _ (by omega)⟩
        · cases h
    · rcases hpj : (if (env.pollFn up.id f.name).status = .completed
          then (env.pollFn up.id f.name).jsonData else none) with _ | j
      · simp only [hdl, hup, hpj, progVals, List.filterMap_append, List.filterMap_cons,
          List.filterMap_nil, updateProgress_overallProgress, getCurrentStageWeight]
        constructor
        · simp only [List.cons_append, List.nil_append, List.chain'_cons,
            List.chain'_singleton, and_true]
          exact ⟨opv_mono _ (by omega), opv_mono _ (by omega)⟩
        · intro v hv
          simp only [List.cons_append, List.nil_append, List.mem_cons,
            List.mem_singleton] at hv
          rcases hv with rfl | rfl | rfl | h
          · exact ⟨opv_mono _ (by omega), opv_mono _ (by omega)⟩
          · exact ⟨opv_mono _ (by omega), opv_mono _ (by omega)⟩
          · exact ⟨opv_mono _ (by omega), opv_mono _ (by omega)⟩
          · cases h
      · rcases hgm : env.geminiProcessFn j existingSheet operationType with msg | g
        · simp only [hdl, hup, hpj, hgm, progVals, List.filterMap_append,
            List.filterMap_cons, List.filterMap_nil, updateProgress_overallProgress,
            getCurrentStageWeight]
          constructor
          · simp only [List.cons_append, List.nil_append, List.chain'_cons,
              List.chain'_singleton, and_true]
            exact ⟨opv_mono _ (by omega), opv_mono _ (by omega), opv_mono _ (by omega)⟩
          · intro v hv
            simp only [List.cons_append, List.nil_append, List.mem_cons,
              List.mem_singleton] at hv
            rcases hv with rfl | rfl | rfl | rfl | h
            · exact ⟨opv_mono _ (by omega), opv_mono _ (by omega)⟩
            · exact ⟨opv_mono _ (by omega), opv_mono _ (by omega)⟩
            · exact ⟨opv_mono _ (by omega), opv_mono _ (by omega)⟩
            · exact ⟨opv_mono _ (by omega), opv_mono _ (by omega)⟩
            · cases h
        · simp only [hdl, hup, hpj, hgm, progVals, List.filterMap_append,
            List.filterMap_cons, List.filterMap_nil, updateProgress_overallProgress,
            getCurrentStageWeight]
          constructor
          · simp only [List.cons_append, List.nil_append, List.chain'_cons,
              List.chain'_singleton, and_true]
            exact ⟨opv_mono _ (by omega), opv_mono _ (by omega), opv_mono _ (by omega)⟩
          · intro v hv
            simp only [List.cons_append, List.nil_append, List.mem_cons,
              List.mem_singleton] at hv
            rcases hv with rfl | rfl | rfl | rfl | h
            · exact ⟨opv_mono _ (by omega), opv_mono _ (by omega)⟩
            · exact ⟨opv_mono _ (by omega), opv_mono _ (by omega)⟩
            · exact ⟨opv_mono _ (by omega), opv_mono _ (by omega)⟩
            · exact ⟨opv_mono _ (by omega), opv_mono _ (by omega)⟩
            · cases h

/-- The whole loop emits nondecreasing overallProgress values, all between
the weight of its first file and the weight after its last file. -/
theorem pipelineLoop_progVals_chain {F J G : Type} (env : PipelineEnv F J G)
    (files : List DriveFile) (operationType : OperationType)
    (existingSheet : List (List String)) :
    ∀ (rem : List DriveFile) (i : Nat) (rs : List PipelineFileResult)
      (st : PipelineAccum G),
      List.Chain' (· ≤ ·)
        (progVals (pipelineLoop env files operationType existingSheet i rem rs st).events) ∧
      ∀ v ∈ progVals (pipelineLoop env files operationType existingSheet i rem rs st).events,
        opv files.length (i * 4) ≤ v ∧ v ≤ opv files.length ((i + rem.length) * 4) := by
  intro rem
  induction rem with
  | nil =>
    intro i rs st
    exact ⟨List.chain'_nil, fun v hv => by cases hv⟩
  | cons f rest ih =>
    intro i rs st
    simp only [pipelineLoop, progVals_append]
    obtain ⟨hc1, hb1⟩ := processOneFile_progVals_chain env files operationType
      existingSheet i f rs st
    obtain ⟨hc2, hb2⟩ := ih (i + 1)
      (processOneFile env files operationType existingSheet i f rs st).results
      (processOneFile env files operationType existingSheet i f rs st).acc
    constructor
    · refine chain_le_append hc1 hc2 ?_
      intro a ha b hb
      calc a ≤ opv files.length (i * 4 + 3) := (hb1 a ha).2
        _ ≤ opv files.length ((i + 1) * 4) := opv_mono _ (by omega)
        _ ≤ b := (hb2 b hb).1
    · intro v hv
      rcases List.mem_append.mp hv with h | h
      · exact ⟨(hb1 v h).1,
          le_trans (hb1 v h).2 (opv_mono _ (by simp [List.length_cons]; omega))⟩
      · exact ⟨le_trans (opv_mono _ (by omega)) (hb2 v h).1,
          le_trans (hb2 v h).2 (opv_mono _ (by simp [List.length_cons]; omega))⟩

/-- C6: across the full sequence of progress events emitted during one run
of processFilesSequentialPipeline — per-file events, per-file error events
and the final batch-level events — the overallProgress field, derived from
the stage weights download=0, llamaparse=1, gemini=2, sheets=3,
completed=4, is monotonically non-decreasing. -/
theorem pipeline_overallProgress_monotone {F J G : Type} (env : PipelineEnv F J G)
    (driveFiles : List DriveFile) (stockName : String)
    (operationType : OperationType) (ret : PipelineReturn G)
    (tr : List (PipeEvent G))
    (h : processFilesSequentialPipeline env driveFiles stockName operationType
      = .ok (ret, tr)) :
    List.Chain' (· ≤ ·) (progVals tr) := by
  rw [processFilesSequentialPipeline] at h
  split at h
  · exact absurd h (by simp)
  · split at h
    · exact absurd h (by simp)
    · simp only [Except.ok.injEq, Prod.mk.injEq] at h
      obtain ⟨hret, htr⟩ := h
      subst htr
      rw [progVals_append]
      have hcons : ∀ (tl : List (PipeEvent G)),
          progVals (.getSheetCall :: tl) = progVals tl := fun _ => rfl
      rw [hcons]
      obtain ⟨hc1, hb1⟩ := pipelineLoop_progVals_chain env driveFiles operationType
        (match env.getExistingSheetFn with | .ok s => s | .error _ => [])
        driveFiles 0 (driveFiles.map initFileResult) (initAccum G)
      refine chain_le_append hc1 ?_ ?_
      · split
        · simp only [progVals, List.cons_append, List.nil_append, List.filterMap_cons,
            List.filterMap_nil, updateProgress_overallProgress, getCurrentStageWeight]
          simp only [List.chain'_cons, List.chain'_singleton, and_true]
          exact opv_mono _ (by omega)
        · simp only [progVals, List.nil_append, List.filterMap_cons, List.filterMap_nil]
          exact List.chain'_singleton _
      · intro a ha b hb
        have ha2 := (hb1 a ha).2
        have hstep : opv driveFiles.length ((0 + driveFiles.length) * 4) ≤ b := by
          split at hb
          · simp only [progVals, List.cons_append, List.nil_append,
              List.filterMap_cons, List.filterMap_nil,
              updateProgress_overallProgress, getCurrentStageWeight,
              List.mem_cons, List.mem_singleton] at hb
            rcases hb with rfl | rfl | hfalse
            · exact opv_mono _ (by omega)
            · exact opv_mono _ (by omega)
            · cases hfalse
          · simp only [progVals, List.nil_append, List.filterMap_cons,
              List.filterMap_nil, List.mem_singleton] at hb
            rcases hb with rfl
            exact (by
              simp only [updateProgress_overallProgress, getCurrentStageWeight]
              exact opv_mono _ (by omega))
        exact le_trans ha2 hstep

/-- Witness for C6: the progress values of the 3-file run with one download
failure form a nondecreasing chain. -/
theorem pipeline_overallProgress_monotone_witness :
    List.Chain' (· ≤ ·) (progVals (traceOf runDownloadFail2)) :=
  pipeline_overallProgress_monotone envDownloadFail2 files3 "ACME" .create
    (retOf runDownloadFail2) (retOf runDownloadFail2, traceOf runDownloadFail2).2 rfl

/-- C5 amended: for a file whose interpret stage throws, the orchestrator
records the error, marks the interpret stage error while the persist stage
stays pending (not error: the catch block only rewrites statuses currently
processing), counts the file among failedFiles and not successfulFiles,
accumulates none of its data, and continues with the next file; a file
whose interpret stage returns an empty record set is instead treated as
fully successful, contributing zero records. -/
theorem interpret_failure_isolation {F J G : Type} (env : PipelineEnv F J G)
    (files : List DriveFile) (operationType : OperationType)
    (existingSheet : List (List String)) (i : Nat) (f : DriveFile)
    (rs : List PipelineFileResult) (st : PipelineAccum G)
    (hi : i < rs.length)
    (hinit : rs.getD i (initFileResult f) = initFileResult f) :
    (∀ fileV up j msg,
      env.downloadFn f.id f.name = .ok fileV →
      env.uploadFn fileV = .ok up →
      (env.pollFn up.id f.name).status = .completed →
      (env.pollFn up.id f.name).jsonData = some j →
      env.geminiProcessFn j existingSheet operationType = .error msg →
      ((processOneFile env files operationType existingSheet i f rs st).ok = false ∧
       (processOneFile env files operationType existingSheet i f rs st).results.getD i
           (initFileResult f) =
         { id := f.id, fileName := f.name, downloadStatus := .completed,
           llamaParseStatus := .completed, geminiStatus := .error,
           sheetsStatus := .pending, error := some msg,
           llamaParseJobId := some up.id } ∧
       (processOneFile env files operationType existingSheet i f rs st).acc.failedFiles =
         st.failedFiles ++ [f.name] ∧
       (processOneFile env files operationType existingSheet i f rs st).acc.successfulFiles =
         st.successfulFiles ∧
       (processOneFile env files operationType existingSheet i f rs st).acc.allData =
         st.allData)) ∧
    (∀ fileV up j g,
      env.downloadFn f.id f.name = .ok fileV →
      env.uploadFn fileV = .ok up →
      (env.pollFn up.id f.name).status = .completed →
      (env.pollFn up.id f.name).jsonData = some j →
      env.geminiProcessFn j existingSheet operationType = .ok g →
      g.data = [] →
      ((processOneFile env files operationType existingSheet i f rs st).ok = true ∧
       (processOneFile env files operationType existingSheet i f rs st).acc.successfulFiles =
         st.successfulFiles ++ [f.name] ∧
       (processOneFile env files operationType existingSheet i f rs st).acc.failedFiles =
         st.failedFiles ∧
       (processOneFile env files operationType existingSheet i f rs st).acc.allData =
         st.allData)) ∧
    (∀ rest,
      pipelineLoop env files operationType existingSheet i (f :: rest) rs st =
        { results := (pipelineLoop env files operationType existingSheet (i + 1) rest
            (processOneFile env files operationType existingSheet i f rs st).results
            (processOneFile env files operationType existingSheet i f rs st).acc).results,
          acc := (pipelineLoop env files operationType existingSheet (i + 1) rest
            (processOneFile env files operationType existingSheet i f rs st).results
            (processOneFile env files operationType existingSheet i f rs st).acc).acc,
          events :=
            (processOneFile env files operationType existingSheet i f rs st).events ++
            (pipelineLoop env files operationType existingSheet (i + 1) rest
              (processOneFile env files operationType existingSheet i f rs st).results
              (processOneFile env files operationType existingSheet i f rs st).acc).events }) := by
  refine ⟨?_, ?_, fun rest => rfl⟩
  · intro fileV up j msg hdl hup hst hjd hgm
    unfold processOneFile stepFail
    rw [hinit]
    simp [hdl, hup, hst, hjd, hgm, markCatch, errStage, initFileResult, List.set_set,
      List.getD_eq_getElem?_getD, List.getElem?_set_self hi]
  · intro fileV up j g hdl hup hst hjd hgm hdata
    unfold processOneFile
    rw [hinit]
    simp [hdl, hup, hst, hjd, hgm, hdata, initFileResult]

/-- Witness for the amended C5: one file whose Gemini stage throws is
failed with geminiStatus error and sheetsStatus pending; one file whose
Gemini stage returns zero records is counted successful. -/
theorem interpret_failure_isolation_witness :
    ((processOneFile envGeminiThrows [⟨"id1", "file1"⟩] .create [] 0 ⟨"id1", "file1"⟩
        [initFileResult ⟨"id1", "file1"⟩] (initAccum String)).ok = false ∧
     (processOneFile envGeminiThrows [⟨"id1", "file1"⟩] .create [] 0 ⟨"id1", "file1"⟩
        [initFileResult ⟨"id1", "file1"⟩] (initAccum String)).results.getD 0
        (initFileResult ⟨"id1", "file1"⟩) =
       { id := "id1", fileName := "file1", downloadStatus := .completed,
         llamaParseStatus := .completed, geminiStatus := .error,
         sheetsStatus := .pending, error := some "gemini boom",
         llamaParseJobId := some "job-1" } ∧
     (processOneFile envGeminiThrows [⟨"id1", "file1"⟩] .create [] 0 ⟨"id1", "file1"⟩
        [initFileResult ⟨"id1", "file1"⟩] (initAccum String)).acc.failedFiles =
       (initAccum String).failedFiles ++ ["file1"] ∧
     (processOneFile envGeminiThrows [⟨"id1", "file1"⟩] .create [] 0 ⟨"id1", "file1"⟩
        [initFileResult ⟨"id1", "file1"⟩] (initAccum String)).acc.successfulFiles =
       (initAccum String).successfulFiles ∧
     (processOneFile envGeminiThrows [⟨"id1", "file1"⟩] .create [] 0 ⟨"id1", "file1"⟩
        [initFileResult ⟨"id1", "file1"⟩] (initAccum String)).acc.allData =
       (initAccum String).allData) ∧
    ((processOneFile envEmptyGemini [⟨"id1", "file1"⟩] .create [] 0 ⟨"id1", "file1"⟩
        [initFileResult ⟨"id1", "file1"⟩] (initAccum String)).ok = true ∧
     (processOneFile envEmptyGemini [⟨"id1", "file1"⟩] .create [] 0 ⟨"id1", "file1"⟩
        [initFileResult ⟨"id1", "file1"⟩] (initAccum String)).acc.successfulFiles =
       (initAccum String).successfulFiles ++ ["file1"] ∧
     (processOneFile envEmptyGemini [⟨"id1", "file1"⟩] .create [] 0 ⟨"id1", "file1"⟩
        [initFileResult ⟨"id1", "file1"⟩] (initAccum String)).acc.failedFiles =
       (initAccum String).failedFiles ∧
     (processOneFile envEmptyGemini [⟨"id1", "file1"⟩] .create [] 0 ⟨"id1", "file1"⟩
        [initFileResult ⟨"id1", "file1"⟩] (initAccum String)).acc.allData =
       (initAccum String).allData) :=
  ⟨(interpret_failure_isolation envGeminiThrows [⟨"id1", "file1"⟩] .create [] 0
      ⟨"id1", "file1"⟩ [initFileResult ⟨"id1", "file1"⟩] (initAccum String)
      (by decide) rfl).1 () ⟨"job-1", "PENDING"⟩ () "gemini boom" rfl rfl rfl rfl rfl,
   (interpret_failure_isolation envEmptyGemini [⟨"id1", "file1"⟩] .create [] 0
      ⟨"id1", "file1"⟩ [initFileResult ⟨"id1", "file1"⟩] (initAccum String)
      (by decide) rfl).2.1 () ⟨"job-1", "PENDING"⟩ ()
      { data := [], rawOutput := "raw", stats := { lineItemsFound := 0, periodsFound := 0 } }
      rfl rfl rfl rfl rfl rfl⟩

/-! ## Theorems about handleCreateMode / handleUpdateMode -/

/-- The JS sort comparator is total. -/
theorem chListLe_total : ∀ x y : List Char, chListLe x y = true ∨ chListLe y x = true := by
  intro x
  induction x with
  | nil => intro y; left; rfl
  | cons a as ih =>
    intro y
    cases y with
    | nil => right; rfl
    | cons b bs =>
      by_cases h1 : a.toNat < b.toNat
      · left
        simp [chListLe, h1]
      · by_cases h2 : b.toNat < a.toNat
        · right
          simp [chListLe, h1, h2]
        · rcases ih bs with h | h
          · left
            simp [chListLe, h1, h2, h]
          · right
            simp [chListLe, h1, h2, h]

/-- The JS sort comparator is transitive. -/
theorem chListLe_trans : ∀ x y z : List Char,
    chListLe x y = true → chListLe y z = true → chListLe x z = true := by
  intro x
  induction x with
  | nil => intro y z _ _; rfl
  | cons a as ih =>
    intro y z hxy hyz
    cases y with
    | nil => simp [chListLe] at hxy
    | cons b bs =>
      cases z with
      | nil => simp [chListLe] at hyz
      | cons c cs =>
        simp only [chListLe] at hxy hyz ⊢
        by_cases h1 : a.toNat < b.toNat <;> by_cases h2 : b.toNat < a.toNat <;>
          by_cases h3 : b.toNat < c.toNat <;> by_cases h4 : c.toNat < b.toNat <;>
          by_cases h5 : a.toNat < c.toNat <;> by_cases h6 : c.toNat < a.toNat <;>
          simp only [h1, h2, h3, h4, h5, h6, if_true, if_false, ite_true, ite_false,
            if_pos, if_neg, not_false_eq_true, not_true_eq_false] at hxy hyz ⊢ <;>
          first
            | rfl
            | omega
            | exact ih bs cs hxy hyz
            | exact absurd hxy (by decide)
            | exact absurd hyz (by decide)

/-- A column of per-row single-row updates carries exactly the given rows. -/
theorem flatMap_values_enum (mkU : Nat × List String → CellUpdate)
    (hmk : ∀ ir, (mkU ir).values = [ir.2]) :
    ∀ (rows : List (List String)) (k : Nat),
      ((List.enumFrom k rows).map mkU).flatMap (fun u => u.values) = rows := by
  intro rows
  induction rows with
  | nil => intro k; rfl
  | cons r rs ih =>
    intro k
    simp only [List.enumFrom, List.map_cons, List.flatMap_cons, hmk, ih (k + 1)]
    rfl

/-- C7: the CREATE-mode merger is a deterministic function of the record
set alone (the snapshot argument is ignored, as in the source): the period
header is the sorted duplicate-free union of all period keys of all
records, and the emitted grid is that header followed by one row per
record, in record order, carrying the record value or the empty string for
each period.  In particular two calls on the same records produce
identical output. -/
theorem handleCreateMode_spec (recs : List Rec) (s1 s2 : List (List String)) :
    List.Sorted (fun a b => jsLeb a b = true) (createPeriods recs) ∧
    (createPeriods recs).Nodup ∧
    (∀ p, p ∈ createPeriods recs ↔
      (p ≠ "lineItem" ∧ ∃ r ∈ recs, p ∈ r.fields.map Prod.fst)) ∧
    emittedRows (handleCreateMode recs s1) =
      ("lineItem" :: createPeriods recs) ::
        recs.map (fun r => r.lineItem :: (createPeriods recs).map fun p => jsGet r p) ∧
    handleCreateMode recs s1 = handleCreateMode recs s2 := by
  haveI htot : IsTotal String (fun a b => jsLeb a b = true) :=
    ⟨fun a b => chListLe_total a.data b.data⟩
  haveI htrans : IsTrans String (fun a b => jsLeb a b = true) :=
    ⟨fun a b c => chListLe_trans a.data b.data c.data⟩
  refine ⟨List.sorted_insertionSort _ _, ?_, ?_, ?_, rfl⟩
  · exact ((List.perm_insertionSort _ _).nodup_iff).mpr (List.nodup_dedup _)
  · intro p
    rw [createPeriods, (List.perm_insertionSort _ _).mem_iff, List.mem_dedup,
      List.mem_flatMap]
    constructor
    · rintro ⟨r, hr, hp⟩
      rw [List.mem_filter] at hp
      exact ⟨by simpa using hp.2, r, hr, hp.1⟩
    · rintro ⟨hne, r, hr, hp⟩
      exact ⟨r, hr, List.mem_filter.mpr ⟨hp, by simpa using hne⟩⟩
  · rw [handleCreateMode, emittedRows]
    split
    · rename_i hlen
      have hrecs : recs = [] := by
        simpa using congrArg List.length (List.length_eq_zero.mp (by simpa using hlen))
      subst hrecs
      rfl
    · simp only [List.flatten, List.flatMap_cons, List.flatMap_nil, List.append_nil,
        List.flatMap_append]
      rw [List.enum]
      rw [flatMap_values_enum _ (fun ir => rfl) _ 0]
      rfl

/-- Every update the batched UPDATE loop emits writes columns at or beyond
exLen + 1, spans a non24empty column range, writes only periods of rem when
it touches the header row, and touches a data row only when the matching
record has a non-empty value at some period of rem. -/
theorem updateBatchesFuel_props (exLen : Nat) (recs : List Rec)
    (lineItems : List (Option String)) :
    ∀ (fuel i : Nat) (rem : List String),
      ∀ call ∈ updateBatchesFuel exLen recs lineItems fuel i rem, ∀ u ∈ call,
        (exLen + 1 ≤ u.range.startCol ∧ u.range.startCol ≤ u.range.endCol) ∧
        (u.range.startRow = 1 → ∀ row ∈ u.values, ∀ p ∈ row, p ∈ rem) ∧
        (∀ rowIndex : Nat, u.range.startRow = rowIndex + 2 →
          ∃ p ∈ rem, rowNewValue recs (lineItems.getD rowIndex none) p ≠ "") := by
  intro fuel
  induction fuel with
  | zero => intro i rem call hc; cases hc
  | succ n ih =>
    intro i rem call hcall u hu
    simp only [updateBatchesFuel] at hcall
    by_cases hrem : rem = []
    · rw [if_pos hrem] at hcall
      cases hcall
    · rw [if_neg hrem] at hcall
      simp only [List.length_cons, Nat.zero_lt_succ, if_true, List.cons_append,
        List.nil_append] at hcall
      have hbatchlen : 0 < (List.take UPDATE_BATCH_SIZE rem).length := by
        have hp : 0 < rem.length := List.length_pos.mpr hrem
        simp only [List.length_take, UPDATE_BATCH_SIZE]
        omega
      rcases List.mem_cons.mp hcall with rfl | htail
      · rcases List.mem_cons.mp hu with rfl | hdata
        · refine ⟨⟨?_, ?_⟩, ?_, ?_⟩
          · show exLen + 1 ≤ exLen + 1 + i
            omega
          · show exLen + 1 + i ≤ exLen + 1 + i + (List.take UPDATE_BATCH_SIZE rem).length - 1
            omega
          · intro _ row hrow p hp
            rcases List.mem_singleton.mp hrow with rfl
            exact List.take_subset _ _ hp
          · intro rowIndex habs
            exact absurd (show (1 : Nat) = rowIndex + 2 from habs) (by omega)
        · rcases List.mem_filterMap.mp hdata with ⟨rli, hrli, hfm⟩
          split at hfm
          · rename_i item hfind
            split at hfm
            · rename_i hany
              rcases Option.some.inj hfm with rfl
              refine ⟨⟨?_, ?_⟩, ?_, ?_⟩
              · show exLen + 1 ≤ exLen + 1 + i
                omega
              · show exLen + 1 + i ≤
                  exLen + 1 + i + (List.take UPDATE_BATCH_SIZE rem).length - 1
                omega
              · intro habs
                exact absurd (show rli.1 + 2 = 1 from habs) (by omega)
              · intro rowIndex hrow
                have hidx : rli.1 = rowIndex := by
                  have h2 : rli.1 + 2 = rowIndex + 2 := hrow
                  omega
                rcases List.any_eq_true.mp hany with ⟨v, hv, hvne⟩
                rcases List.mem_map.mp hv with ⟨p, hpmem, rfl⟩
                refine ⟨p, List.take_subset _ _ hpmem, ?_⟩
                have hgd : lineItems.getD rowIndex none = rli.2 := by
                  rw [List.getD_eq_getElem?_getD, ← hidx,
                    List.mem_enum_iff_getElem?.mp hrli]
                  rfl
                rw [rowNewValue, hgd, hfind]
                simpa using hvne
            · cases hfm
          · cases hfm
      · have hprops := ih (i + UPDATE_BATCH_SIZE) (List.drop UPDATE_BATCH_SIZE rem)
          call htail u hu
        refine ⟨hprops.1, ?_, ?_⟩
        · intro h1 row hrow p hp
          exact List.drop_subset _ _ (hprops.2.1 h1 row hrow p hp)
        · intro rowIndex hrow
          rcases hprops.2.2 rowIndex hrow with ⟨p, hpmem, hpne⟩
          exact ⟨p, List.drop_subset _ _ hpmem, hpne⟩

/-- A period selected by the UPDATE-mode diff is never an existing one. -/
theorem updNewPeriods_not_existing (sheet : List (List String)) (recs : List Rec) :
    ∀ p ∈ updNewPeriods sheet recs, p ∉ existingPeriodsOf sheet := by
  intro p hp hmem
  rw [updNewPeriods, List.mem_dedup, List.mem_flatMap] at hp
  rcases hp with ⟨r, hr, hpf⟩
  rw [List.mem_filter] at hpf
  have h2 := hpf.2
  simp only [Bool.and_eq_true, bne_iff_ne, Bool.not_eq_true'] at h2
  have hc : (existingPeriodsOf sheet).contains p = true :=
    List.contains_iff_exists_mem_beq.mpr ⟨p, hmem, by simp⟩
  rw [h2.2] at hc
  cases hc

/-- C8: the UPDATE-mode merger only appends: every emitted write targets a
column strictly beyond the last existing header column (so no existing
column, header cell or data cell of the table described by the snapshot
header is ever overwritten), every period written into the header row is
absent from the existing header, and an existing data row whose matching
record has no non-empty value for any new period receives no cell write at
all. -/
theorem handleUpdateMode_frame (sheet : List (List String)) (recs : List Rec) :
    (∀ call ∈ handleUpdateMode sheet recs, ∀ u ∈ call,
      (existingPeriodsOf sheet).length + 1 ≤ u.range.startCol ∧
      u.range.startCol ≤ u.range.endCol) ∧
    (∀ call ∈ handleUpdateMode sheet recs, ∀ u ∈ call, u.range.startRow = 1 →
      ∀ row ∈ u.values, ∀ p ∈ row, p ∉ existingPeriodsOf sheet) ∧
    (∀ rowIndex : Nat,
      (∀ p ∈ updNewPeriods sheet recs,
        rowNewValue recs (((sheet.drop 1).map fun row => row.head?).getD rowIndex none) p
          = "") →
      ∀ call ∈ handleUpdateMode sheet recs, ∀ u ∈ call,
        u.range.startRow ≠ rowIndex + 2) := by
  rw [handleUpdateMode]
  split
  · exact ⟨fun call hc => absurd hc (List.not_mem_nil call),
      fun call hc => absurd hc (List.not_mem_nil call),
      fun rowIndex _ call hc => absurd hc (List.not_mem_nil call)⟩
  · rw [updateBatches]
    have hprops := updateBatchesFuel_props (existingPeriodsOf sheet).length recs
      ((sheet.drop 1).map fun row => row.head?)
      (List.insertionSort (fun a b => jsLeb a b = true)
        (updNewPeriods sheet recs)).length 0
      (List.insertionSort (fun a b => jsLeb a b = true) (updNewPeriods sheet recs))
    refine ⟨fun call hc u hu => (hprops call hc u hu).1, ?_, ?_⟩
    · intro call hc u hu h1 row hrow p hp
      have hpmem := (hprops call hc u hu).2.1 h1 row hrow p hp
      exact updNewPeriods_not_existing sheet recs p
        ((List.perm_insertionSort _ _).mem_iff.mp hpmem)
    · intro rowIndex hempty call hc u hu habs
      rcases (hprops call hc u hu).2.2 rowIndex habs with ⟨p, hpmem, hpne⟩
      exact hpne (hempty p ((List.perm_insertionSort _ _).mem_iff.mp hpmem))

/-- Witness for C8 on a concrete snapshot and record set: the existing
header spans columns 0-1, every emitted write starts at column 2, and the
Costs row (data row index 1, spreadsheet row 3), whose record carries only
an empty value for the new period, receives no write. -/
theorem handleUpdateMode_frame_witness :
    (∀ call ∈ handleUpdateMode sheetW recsW, ∀ u ∈ call,
      (existingPeriodsOf sheetW).length + 1 ≤ u.range.startCol ∧
      u.range.startCol ≤ u.range.endCol) ∧
    (∀ call ∈ handleUpdateMode sheetW recsW, ∀ u ∈ call,
      u.range.startRow ≠ 1 + 2) :=
  ⟨(handleUpdateMode_frame sheetW recsW).1,
   (handleUpdateMode_frame sheetW recsW).2.2 1 (by decide)⟩

/-- The code point the colChar encoder produces: 65 + index when that is a
valid scalar value, otherwise the null character. -/
theorem colChar_toNat (c : Nat) :
    (colChar c).toNat = if (65 + c).isValidChar then 65 + c else 0 := by
  by_cases hv : (65 + c).isValidChar
  · rw [colChar, Char.ofNat, dif_pos hv, if_pos hv]
    simp [Char.ofNatAux, Char.toNat, UInt32.toNat, BitVec.toNat_ofNatLt]
  · rw [colChar, Char.ofNat, dif_neg hv, if_neg hv]
    rfl

/-- Character order is code-point order. -/
theorem char_le_iff_toNat (a b : Char) : (a ≤ b) ↔ a.toNat ≤ b.toNat := by
  rw [Char.le_def, UInt32.le_def, BitVec.le_def]
  exact Iff.rfl

/-- C10: every A1 range handleCreateMode and handleUpdateMode emit encodes
its columns with colChar, the single character of code 65 + columnIndex
(see renderRange); such a character is a letter in A-Z exactly when the
column index is at most 25.  Hence the CREATE-mode output is entirely
well-formed iff the table spans at most 26 columns (createPeriods plus the
lineItem column), and each UPDATE-mode range is well-formed iff its end
column index is at most 25. -/
theorem emitted_ranges_single_letter :
    (∀ c : Nat, ('A' ≤ colChar c ∧ colChar c ≤ 'Z') ↔ c ≤ 25) ∧
    (∀ (recs : List Rec) (sheet : List (List String)),
      (∀ call ∈ handleCreateMode recs sheet, ∀ u ∈ call, rangeWellFormed u.range) ↔
        (createPeriods recs).length ≤ 25) ∧
    (∀ (sheet : List (List String)) (recs : List Rec),
      ∀ call ∈ handleUpdateMode sheet recs, ∀ u ∈ call,
        (rangeWellFormed u.range ↔ u.range.endCol ≤ 25)) := by
  have hiff : ∀ c : Nat, ('A' ≤ colChar c ∧ colChar c ≤ 'Z') ↔ c ≤ 25 := by
    intro c
    rw [char_le_iff_toNat, char_le_iff_toNat, colChar_toNat]
    have hA : ('A').toNat = 65 := rfl
    have hZ : ('Z').toNat = 90 := rfl
    rw [hA, hZ]
    by_cases hv : (65 + c).isValidChar
    · rw [if_pos hv]
      omega
    · rw [if_neg hv]
      simp only [Nat.isValidChar] at hv
      omega
  refine ⟨hiff, ?_, ?_⟩
  · intro recs sheet
    constructor
    · intro h
      have hc : [({ range := { startCol := 0, startRow := 1,
                               endCol := (createPeriods recs).length, endRow := 1 },
                    values := [("lineItem" :: createPeriods recs)] } : CellUpdate)] ∈
          handleCreateMode recs sheet := by
        rw [handleCreateMode]
        split
        · exact List.mem_singleton_self _
        · exact List.mem_cons_self _ _
      have hwf := h _ hc _ (List.mem_singleton_self _)
      exact (hiff (createPeriods recs).length).mp hwf.2
    · intro hlen call hc u hu
      rw [handleCreateMode] at hc
      have hcols : u.range.startCol = 0 ∧ u.range.endCol = (createPeriods recs).length := by
        split at hc
        · rcases List.mem_singleton.mp hc with rfl
          rcases List.mem_singleton.mp hu with rfl
          exact ⟨rfl, rfl⟩
        · rcases List.mem_cons.mp hc with rfl | hc2
          · rcases List.mem_singleton.mp hu with rfl
            exact ⟨rfl, rfl⟩
          · rcases List.mem_singleton.mp hc2 with rfl
            rcases List.mem_map.mp hu with ⟨ir, _, rfl⟩
            exact ⟨rfl, rfl⟩
      exact ⟨by rw [hcols.1]; exact (hiff 0).mpr (by omega),
        by rw [hcols.2]; exact (hiff _).mpr hlen⟩
  · intro sheet recs call hc u hu
    rw [handleUpdateMode] at hc
    split at hc
    · exact absurd hc (List.not_mem_nil call)
    · rw [updateBatches] at hc
      have hse := (updateBatchesFuel_props (existingPeriodsOf sheet).length recs
        ((sheet.drop 1).map fun row => row.head?) _ 0 _ call hc u hu).1
      constructor
      · intro hwf
        exact (hiff u.range.endCol).mp hwf.2
      · intro hend
        exact ⟨(hiff u.range.startCol).mpr (by omega), (hiff u.range.endCol).mpr hend⟩

/-- Witness for C10: the letter iff at column 0, the CREATE-mode iff on the
concrete record set, and the UPDATE-mode iff at the concrete header write
of column 2. -/
theorem emitted_ranges_single_letter_witness :
    (('A' ≤ colChar 0 ∧ colChar 0 ≤ 'Z') ↔ (0 : Nat) ≤ 25) ∧
    ((∀ call ∈ handleCreateMode recsW [], ∀ u ∈ call, rangeWellFormed u.range) ↔
      (createPeriods recsW).length ≤ 25) ∧
    (rangeWellFormed ({ startCol := 2, startRow := 1, endCol := 2, endRow := 1 } : CellRange)
      ↔ (2 : Nat) ≤ 25) :=
  ⟨emitted_ranges_single_letter.1 0,
   emitted_ranges_single_letter.2.1 recsW [],
   emitted_ranges_single_letter.2.2 sheetW recsW
     [{ range := { startCol := 2, startRow := 1, endCol := 2, endRow := 1 },
        values := [["2023"]] },
      { range := { startCol := 2, startRow := 2, endCol := 2, endRow := 2 },
        values := [["5"]] }] (by decide)
     { range := { startCol := 2, startRow := 1, endCol := 2, endRow := 1 },
       values := [["2023"]] } (by decide)⟩

end StockReport
